import Mathlib

/-!
Shallow embedding of the quantized MobileNetV2 building blocks defined in
`src/mobilenetv2-quantized/Untitled.ipynb`: the quantization descriptor
policies, the quantized convolution block, the inverted residual block and
the (unfinished) network assembler, together with theorems checking the
specification's claims against this embedding.

Tensors are modelled as total functions from (channel, row, column) indices
to rationals; machine floats are modelled by exact rationals, and the
external primitives (torch / brevitas) consumed by the notebook are modelled
where their behavior is load-bearing, as documented at each definition.
-/

/-- Python's `round` (round half to even), as used by `int(round(...))`;
torch's `round` uses the same tie-breaking rule. -/
def pyRound (q : ℚ) : ℤ :=
  let n := ⌊q⌋
  let f := q - n
  if f < 1/2 then n
  else if 1/2 < f then n + 1
  else if n % 2 = 0 then n else n + 1

/-- Clamp an integer to the interval `[lo, hi]`. -/
def intClamp (lo hi n : ℤ) : ℤ := max lo (min hi n)

/-- A (channel, row, column)-indexed rational tensor. -/
abbrev Tensor := ℕ → ℕ → ℕ → ℚ

/-- A quantized tensor: a numeric tensor together with its associated
per-channel scale (constant over channels in the per-tensor case).
This models brevitas's `QuantTensor` as produced by a layer constructed
with `return_quant_tensor=True`. -/
structure QTensor where
  value : Tensor
  scale : ℕ → ℚ

/-- brevitas's `RestrictValueType` enumeration (only the values the
notebook mentions). -/
inductive RestrictValueType where
  | FP
  | LOG_FP
deriving DecidableEq

/-- A quantization descriptor policy: the attributes of a brevitas
quantizer class that the notebook reads or overrides. -/
structure QuantPolicy where
  bit_width : Option ℕ
  signed : Bool
  scaling_per_output_channel : Bool
  scaling_min_val : Option ℚ
  restrict_scaling_type : RestrictValueType
deriving DecidableEq

/-- Modelled from the spec: the external brevitas base quantizer
`Int8WeightPerTensorFloat` (the primitive library is a consumed black box,
spec section 1): 8-bit signed per-tensor weight quantization with
floating-point scaling and no scale floor of its own. -/
def Int8WeightPerTensorFloat : QuantPolicy :=
  { bit_width := some 8
  , signed := true
  , scaling_per_output_channel := false
  , scaling_min_val := none
  , restrict_scaling_type := .FP }

/-- Modelled from the spec: the external brevitas base quantizer
`Int8ActPerTensorFloat`: 8-bit signed per-tensor activation quantization. -/
def Int8ActPerTensorFloat : QuantPolicy :=
  { bit_width := some 8
  , signed := true
  , scaling_per_output_channel := false
  , scaling_min_val := none
  , restrict_scaling_type := .FP }

/-- Modelled from the spec: the external brevitas base quantizer
`Uint8ActPerTensorFloat`: 8-bit unsigned per-tensor activation
quantization. -/
def Uint8ActPerTensorFloat : QuantPolicy :=
  { bit_width := some 8
  , signed := false
  , scaling_per_output_channel := false
  , scaling_min_val := none
  , restrict_scaling_type := .FP }

/-- `CommonIntWeightPerTensorQuant`: per-tensor weight quantizer with the
scale floor fixed to `2e-16` and `bit_width` set to `None` so that it is
forced to be specified by each layer. -/
def CommonIntWeightPerTensorQuant : QuantPolicy :=
  { Int8WeightPerTensorFloat with
      scaling_min_val := some (2 / 10 ^ 16)
      bit_width := none }

/-- `CommonIntWeightPerChannelQuant`: per-channel weight quantizer derived
from the per-tensor one by overriding the scaling granularity. -/
def CommonIntWeightPerChannelQuant : QuantPolicy :=
  { CommonIntWeightPerTensorQuant with scaling_per_output_channel := true }

/-- `CommonIntActQuant`: signed activation quantizer with the scale floor
fixed to `2e-16`, `bit_width` set to `None` and logarithmic floating-point
scale restriction. -/
def CommonIntActQuant : QuantPolicy :=
  { Int8ActPerTensorFloat with
      scaling_min_val := some (2 / 10 ^ 16)
      bit_width := none
      restrict_scaling_type := .LOG_FP }

/-- `CommonUintActQuant`: unsigned activation quantizer with the scale
floor fixed to `2e-16`, `bit_width` set to `None` and logarithmic
floating-point scale restriction. -/
def CommonUintActQuant : QuantPolicy :=
  { Uint8ActPerTensorFloat with
      scaling_min_val := some (2 / 10 ^ 16)
      bit_width := none
      restrict_scaling_type := .LOG_FP }

/-- Modelled from the spec: brevitas resolves a layer's effective bit width
from the layer-level keyword override if present, else from the quantizer
policy; an unresolved (null) bit width is a configuration error (spec
sections 4.1 and 7). -/
def resolveBitWidth (policy : QuantPolicy) (layer : Option ℕ) : Option ℕ :=
  layer.orElse (fun _ => policy.bit_width)

/-- `FIRST_LAYER_BIT_WIDTH = 8` from the notebook's constants cell. -/
def FIRST_LAYER_BIT_WIDTH : ℕ := 8

/-- `LAST_LAYER_BIT_WIDTH = 8` from the notebook's constants cell. -/
def LAST_LAYER_BIT_WIDTH : ℕ := 8

/-- `INTERNAL_BIT_WIDTH = 4` from the notebook's constants cell. -/
def INTERNAL_BIT_WIDTH : ℕ := 4

/-- The default batch-norm epsilon `1e-5`, the default of `ConvBlock`'s
`bn_eps` argument and of torch's `nn.BatchNorm2d`. -/
def defaultEps : ℚ := 1 / 100000

/-- The weight-quantization keyword configuration a layer passes to
`QuantConv2d`: quantizer class, bit width and the `weight_*` keyword
overrides. -/
structure WeightQuantCfg where
  weight_quant : QuantPolicy
  bit_width : Option ℕ
  scaling_per_output_channel : Bool
  scaling_impl_stats : Bool
  scaling_stats_abs_max : Bool
  narrow_range : Bool
  scaling_min_val : ℚ
deriving DecidableEq

/-- The weight-quantization configuration built by `ConvBlock.__init__`
for its `QuantConv2d` (source lines: `weight_quant=CommonIntWeightPerChannelQuant`,
`weight_scaling_per_output_channel=True`, `weight_scaling_impl_type=ScalingImplType.STATS`,
`weight_scaling_stats_op='abs_max'`, `weight_narrow_range=True`,
`weight_scaling_min_val=2e-16`). -/
def convBlockWeightQuantCfg (weight_bit_width : Option ℕ) : WeightQuantCfg :=
  { weight_quant := CommonIntWeightPerChannelQuant
  , bit_width := weight_bit_width
  , scaling_per_output_channel := true
  , scaling_impl_stats := true
  , scaling_stats_abs_max := true
  , narrow_range := true
  , scaling_min_val := 2 / 10 ^ 16 }

/-- The weight-quantization configuration built by `InvertedResidual.__init__`
for its inline pointwise `QuantConv2d` (same keywords, bit width
`INTERNAL_BIT_WIDTH`). -/
def invResPointwiseWeightQuantCfg : WeightQuantCfg :=
  { weight_quant := CommonIntWeightPerChannelQuant
  , bit_width := some INTERNAL_BIT_WIDTH
  , scaling_per_output_channel := true
  , scaling_impl_stats := true
  , scaling_stats_abs_max := true
  , narrow_range := true
  , scaling_min_val := 2 / 10 ^ 16 }

/-- Maximum (and, for narrow range, absolute minimum) representable signed
integer code at bit width `b` with narrow range: `2 ^ (b - 1) - 1`. -/
def narrowMax (b : ℕ) : ℤ := 2 ^ (b - 1) - 1

/-- Maximum of a list of rationals (`0` for the empty list; all uses take
maxima of absolute values, which are nonnegative). -/
def listMaxQ (l : List ℚ) : ℚ := l.foldr max 0

/-- Absolute maximum of output channel `o`'s weight values (the
`abs_max` scaling statistic over one output channel's kernel). -/
def absMaxOverChannel (w : ℕ → ℕ → ℕ → ℕ → ℚ) (cIn k o : ℕ) : ℚ :=
  listMaxQ ((List.range cIn).map fun c =>
    listMaxQ ((List.range k).map fun a =>
      listMaxQ ((List.range k).map fun b => |w o c a b|)))

/-- Modelled from the spec: the scale a brevitas stats-based weight
quantizer derives for output channel `o` — the `abs_max` statistic (per
output channel, or over the whole tensor when per-tensor), floored at
`scaling_min_val`, divided by the largest representable code (spec
section 4.2). -/
def weightScale (cfg : WeightQuantCfg) (wbw outC cIn k : ℕ)
    (w : ℕ → ℕ → ℕ → ℕ → ℚ) (o : ℕ) : ℚ :=
  let stat :=
    if cfg.scaling_per_output_channel then absMaxOverChannel w cIn k o
    else listMaxQ ((List.range outC).map (absMaxOverChannel w cIn k))
  max stat cfg.scaling_min_val / ((narrowMax wbw : ℤ) : ℚ)

/-- Modelled from the spec: brevitas's simulated integer weight
quantization — round the weight to the per-channel scale grid and clamp it
to the representable signed range, which excludes the extreme negative
code when `narrow_range` is set (spec sections 3 and 4.2). -/
def quantizeWeight (cfg : WeightQuantCfg) (wbw outC cIn k : ℕ)
    (w : ℕ → ℕ → ℕ → ℕ → ℚ) : ℕ → ℕ → ℕ → ℕ → ℚ :=
  fun o c a b =>
    let s := weightScale cfg wbw outC cIn k w o
    s * ((intClamp (if cfg.narrow_range then -narrowMax wbw else -(2 ^ (wbw - 1)))
            (narrowMax wbw) (pyRound (w o c a b / s)) : ℤ) : ℚ)

/-- Modelled from the spec: standard 2-d convolution arithmetic of the
torch primitive — output spatial size `(n + 2 * padding - kernel_size) / stride + 1`
with integer floor (spec section 8). -/
def convOutSize (n kernel_size padding stride : ℕ) : ℕ :=
  (n + 2 * padding - kernel_size) / stride + 1

/-- Modelled from the spec: the torch 2-d grouped convolution primitive,
consumed as a black box (spec section 6): zero padding outside the
`inH × inW` input window, square `kernel_size` kernel, channel groups. -/
def conv2d (in_channels out_channels groups kernel_size stride padding inH inW : ℕ)
    (weight : ℕ → ℕ → ℕ → ℕ → ℚ) (useBias : Bool) (biasv : ℕ → ℚ)
    (x : Tensor) : Tensor :=
  fun o i j =>
    (∑ c ∈ Finset.range (in_channels / groups), ∑ a ∈ Finset.range kernel_size,
      ∑ b ∈ Finset.range kernel_size,
        weight o c a b *
          (if padding ≤ stride * i + a ∧ stride * i + a < inH + padding
              ∧ padding ≤ stride * j + b ∧ stride * j + b < inW + padding then
            x ((o / (out_channels / groups)) * (in_channels / groups) + c)
              (stride * i + a - padding) (stride * j + b - padding)
          else 0))
    + (if useBias then biasv o else 0)

/-- torch's `nn.BatchNorm2d` in its per-channel affine evaluation form.
`inv_std` stands for `1 / sqrt(running_var + eps)` (the square root is not
rational, so the inverse standard deviation is carried as the statistic). -/
structure BatchNorm2d where
  num_features : ℕ
  eps : ℚ
  weight : ℕ → ℚ
  bias : ℕ → ℚ
  running_mean : ℕ → ℚ
  inv_std : ℕ → ℚ

/-- Batch normalization of channel `c`:
`weight c * (x - running_mean c) * inv_std c + bias c`. -/
def BatchNorm2d.forward (bn : BatchNorm2d) (x : Tensor) : Tensor :=
  fun c i j => bn.weight c * (x c i j - bn.running_mean c) * bn.inv_std c + bn.bias c

/-- Maximum representable unsigned integer code at bit width `b`:
`2 ^ b - 1`. -/
def unsignedMax (b : ℕ) : ℤ := 2 ^ b - 1

/-- brevitas's `QuantReLU` as configured by `ConvBlock.__init__`:
`quant_type=INT`, `scaling_impl_type=PARAMETER` (a learned scale parameter
initialized from `max_val`), optional per-channel scaling,
`return_quant_tensor=True`. -/
structure QuantReLU where
  bit_width : ℕ
  max_val : ℚ
  scaling_per_channel : Bool
  scaling_param : ℕ → ℚ

/-- The clipping bound of channel `c`: the learned scaling parameter
(shared over channels in the per-tensor case). -/
def QuantReLU.bound (a : QuantReLU) (c : ℕ) : ℚ :=
  if a.scaling_per_channel then a.scaling_param c else a.scaling_param 0

/-- The quantization step of channel `c`: the bound divided by the largest
unsigned code. -/
def QuantReLU.scale (a : QuantReLU) (c : ℕ) : ℚ :=
  a.bound c / ((unsignedMax a.bit_width : ℤ) : ℚ)

/-- Modelled from the spec: the quantized bounded rectifier primitive —
round the input to the activation scale grid, clamp it to the unsigned
code range (which both rectifies negatives to zero and clips at the
bound), and return the numeric tensor together with its scale (spec
section 4.2). -/
def QuantReLU.forward (a : QuantReLU) (x : Tensor) : QTensor :=
  { value := fun c i j =>
      a.scale c * ((intClamp 0 (unsignedMax a.bit_width)
        (pyRound (x c i j / a.scale c)) : ℤ) : ℚ)
  , scale := a.scale }

/-- The Python errors this notebook can raise: `AttributeError` /
`NameError` from the broken `nn.module` base-class reference,
`AssertionError` from the stride assert, and the brevitas configuration
error for an unresolved bit width. -/
inductive PyError where
  | attributeError
  | nameError
  | assertionError
  | unresolvedBitWidth
deriving DecidableEq

/-- The trainable parameters a `ConvBlock` owns, supplied by the external
training collaborator (spec section 5): the convolution weight (and unused
bias), and the batch-norm affine parameters and running statistics. -/
structure ConvBlockParams where
  weight : ℕ → ℕ → ℕ → ℕ → ℚ
  bias_param : ℕ → ℚ
  bn_weight : ℕ → ℚ
  bn_bias : ℕ → ℚ
  bn_mean : ℕ → ℚ
  bn_inv_std : ℕ → ℚ

/-- The `ConvBlock` module: the `QuantConv2d` configuration and weight,
the `nn.BatchNorm2d`, and the `QuantReLU`. -/
structure ConvBlock where
  in_channels : ℕ
  out_channels : ℕ
  kernel_size : ℕ
  weight_bit_width : ℕ
  act_bit_width : ℕ
  stride : ℕ
  padding : ℕ
  groups : ℕ
  bn_eps : ℚ
  activation_scaling_per_channel : Bool
  bias : Bool
  weight_quant : WeightQuantCfg
  weight : ℕ → ℕ → ℕ → ℕ → ℚ
  bias_param : ℕ → ℚ
  bn : BatchNorm2d
  activation : QuantReLU

/-- `ConvBlock.__init__` with both bit widths already resolved: defaults
`padding = (kernel_size - 1) // 2` when no padding is passed, builds the
`QuantConv2d` weight-quantization configuration, the batch norm at
`bn_eps`, and the `QuantReLU` with `max_val=6` (which initializes the
learned scaling parameter to `6`). -/
def ConvBlock.build (in_channels out_channels kernel_size weight_bit_width act_bit_width
    stride : ℕ) (padding : Option ℕ) (groups : ℕ) (bn_eps : ℚ)
    (activation_scaling_per_channel bias : Bool) (θ : ConvBlockParams) : ConvBlock :=
  { in_channels := in_channels
  , out_channels := out_channels
  , kernel_size := kernel_size
  , weight_bit_width := weight_bit_width
  , act_bit_width := act_bit_width
  , stride := stride
  , padding := padding.getD ((kernel_size - 1) / 2)
  , groups := groups
  , bn_eps := bn_eps
  , activation_scaling_per_channel := activation_scaling_per_channel
  , bias := bias
  , weight_quant := convBlockWeightQuantCfg (some weight_bit_width)
  , weight := θ.weight
  , bias_param := θ.bias_param
  , bn := { num_features := out_channels
          , eps := bn_eps
          , weight := θ.bn_weight
          , bias := θ.bn_bias
          , running_mean := θ.bn_mean
          , inv_std := θ.bn_inv_std }
  , activation := { bit_width := act_bit_width
                  , max_val := 6
                  , scaling_per_channel := activation_scaling_per_channel
                  , scaling_param := fun _ => 6 } }

/-- `ConvBlock.__init__` as called with possibly-unresolved bit widths:
constructing the layer with a `None` bit width (the `Common*` policies
leave it `None`) is a configuration error, raised before any forward
evaluation. -/
def ConvBlock.make (in_channels out_channels kernel_size : ℕ)
    (weight_bit_width act_bit_width : Option ℕ) (stride : ℕ)
    (padding : Option ℕ) (groups : ℕ) (bn_eps : ℚ)
    (activation_scaling_per_channel bias : Bool) (θ : ConvBlockParams) :
    Except PyError ConvBlock :=
  match resolveBitWidth CommonIntWeightPerChannelQuant weight_bit_width with
  | none => .error .unresolvedBitWidth
  | some wb =>
    match act_bit_width with
    | none => .error .unresolvedBitWidth
    | some ab =>
      .ok (ConvBlock.build in_channels out_channels kernel_size wb ab stride
        padding groups bn_eps activation_scaling_per_channel bias θ)

/-- The quantized weight the block's convolution actually applies. -/
def ConvBlock.quantizedWeight (b : ConvBlock) : ℕ → ℕ → ℕ → ℕ → ℚ :=
  quantizeWeight b.weight_quant b.weight_bit_width b.out_channels
    (b.in_channels / b.groups) b.kernel_size b.weight

/-- The convolution stage of the block: `self.conv(x)`. -/
def ConvBlock.convOut (b : ConvBlock) (inH inW : ℕ) (x : Tensor) : Tensor :=
  conv2d b.in_channels b.out_channels b.groups b.kernel_size b.stride b.padding
    inH inW b.quantizedWeight b.bias b.bias_param x

/-- `ConvBlock.forward`: convolution, then batch norm, then the quantized
activation (which returns a quantized tensor carrying its scale). -/
def ConvBlock.forward (b : ConvBlock) (inH inW : ℕ) (x : Tensor) : QTensor :=
  b.activation.forward (b.bn.forward (b.convOut inH inW x))

/-- Output spatial size of the block's convolution for input spatial
size `n`. -/
def ConvBlock.outSize (b : ConvBlock) (n : ℕ) : ℕ :=
  convOutSize n b.kernel_size b.padding b.stride

/-- One entry of the `layers` list built by `InvertedResidual.__init__`:
a `ConvBlock`, a bare `QuantConv2d` (the pointwise projection, no
activation), or a bare `nn.BatchNorm2d`. -/
inductive Stage where
  | convBlock (c : ConvBlock)
  | quantConv (cfg : WeightQuantCfg) (in_channels out_channels kernel_size stride padding : ℕ)
      (weight : ℕ → ℕ → ℕ → ℕ → ℚ)
  | batchNorm (bn : BatchNorm2d)

/-- Spatial shape after one stage. -/
def Stage.outHW : Stage → ℕ → ℕ → ℕ × ℕ
  | .convBlock c, h, w =>
      (convOutSize h c.kernel_size c.padding c.stride,
       convOutSize w c.kernel_size c.padding c.stride)
  | .quantConv _ _ _ k s p _, h, w => (convOutSize h k p s, convOutSize w k p s)
  | .batchNorm _, h, w => (h, w)

/-- Forward evaluation of one stage (the numeric value of a quantized
stage's output flows to the next stage). -/
def Stage.forward : Stage → ℕ → ℕ → Tensor → Tensor
  | .convBlock c, h, w, x => (c.forward h w x).value
  | .quantConv cfg inC outC k s p wt, h, w, x =>
      conv2d inC outC 1 k s p h w
        (quantizeWeight cfg (cfg.bit_width.getD 0) outC inC k wt)
        false (fun _ => 0) x
  | .batchNorm bn, _, _, x => bn.forward x

/-- `nn.Sequential` over the stage list, threading the spatial shape. -/
def runLayers : List Stage → ℕ → ℕ → Tensor → Tensor
  | [], _, _, x => x
  | s :: rest, h, w, x =>
      runLayers rest (s.outHW h w).1 (s.outHW h w).2 (s.forward h w x)

/-- The `InvertedResidual` module: the stride, the residual flag computed
once at construction, and the `nn.Sequential` stage list. -/
structure InvertedResidual where
  stride : ℕ
  use_res_connect : Bool
  layers : List Stage

/-- The parameters of one inverted residual block's stages: the optional
expansion `ConvBlock`, the depthwise `ConvBlock`, the pointwise
projection's weight, and the final batch norm's parameters. -/
structure InvResParams where
  expand : ConvBlockParams
  depthwise : ConvBlockParams
  pw_weight : ℕ → ℕ → ℕ → ℕ → ℚ
  bn_weight : ℕ → ℚ
  bn_bias : ℕ → ℚ
  bn_mean : ℕ → ℚ
  bn_inv_std : ℕ → ℚ

/-- The body of `InvertedResidual.__init__` after the stride assert:
`hidden_dim = int(round(inp * expand_ratio))`,
`use_res_connect = stride == 1 and inp == oup`, and the stage list —
an expansion `ConvBlock` only when the expansion ratio is not 1, the
depthwise `ConvBlock` (groups = hidden_dim, kernel 3, given stride), the
pointwise `QuantConv2d` (kernel 1, stride 1, padding 0, no bias, weight
quantized at `INTERNAL_BIT_WIDTH`, no activation), and a plain
`nn.BatchNorm2d`.  Every `ConvBlock` here is constructed at
`INTERNAL_BIT_WIDTH` for both weights and activations; with both bit
widths concrete, `ConvBlock.make` cannot fail (see
`ConvBlock.make_resolved`), so the resolved `ConvBlock.build` is called
directly. -/
def InvertedResidual.build (inp oup stride : ℕ) (exr : ℚ) (θ : InvResParams) :
    InvertedResidual :=
  let hidden_dim := (pyRound ((inp : ℚ) * exr)).toNat
  { stride := stride
  , use_res_connect := decide (stride = 1) && decide (inp = oup)
  , layers :=
      (if exr ≠ 1 then
        [Stage.convBlock (ConvBlock.build inp hidden_dim 1 INTERNAL_BIT_WIDTH
          INTERNAL_BIT_WIDTH 1 none 1 defaultEps false false θ.expand)]
      else [])
      ++ [ Stage.convBlock (ConvBlock.build hidden_dim hidden_dim 3 INTERNAL_BIT_WIDTH
             INTERNAL_BIT_WIDTH stride none hidden_dim defaultEps false false θ.depthwise)
         , Stage.quantConv invResPointwiseWeightQuantCfg hidden_dim oup 1 1 0 θ.pw_weight
         , Stage.batchNorm { num_features := oup
                           , eps := defaultEps
                           , weight := θ.bn_weight
                           , bias := θ.bn_bias
                           , running_mean := θ.bn_mean
                           , inv_std := θ.bn_inv_std } ] }

/-- `InvertedResidual.__init__`: `assert stride in [1, 2]` fails at
construction time for any other stride; otherwise the block is built. -/
def InvertedResidual.make (inp oup stride : ℕ) (exr : ℚ) (θ : InvResParams) :
    Except PyError InvertedResidual :=
  if stride = 1 ∨ stride = 2 then .ok (InvertedResidual.build inp oup stride exr θ)
  else .error .assertionError

/-- `InvertedResidual.forward`: `x + self.conv(x)` when the stored
residual flag is set, `self.conv(x)` otherwise. -/
def InvertedResidual.forward (b : InvertedResidual) (inH inW : ℕ) (x : Tensor) : Tensor :=
  if b.use_res_connect then
    fun c i j => x c i j + runLayers b.layers inH inW x c i j
  else
    runLayers b.layers inH inW x

/-- Modelled from the spec: the attribute names the external `torch.nn`
namespace exposes among those this notebook references (the torch library
is a consumed black box, spec section 1).  The module-base class is
spelled `Module`; `torch.nn` has no attribute named `module`. -/
def torchNNAttrs : List String := ["Module", "Sequential", "BatchNorm2d"]

/-- The `inverted_residual_setting` table literal assigned inside
`MobileNetV2.__init__`: two empty rows (the `t, c, n, s` entries were
never filled in). -/
def invertedResidualSetting : List (List ℕ) := [[], []]

/-- Modelled from the spec: a well-formed network configuration table is a
nonempty ordered sequence of `(expansion_ratio, output_channels,
repeat_count, stride_of_first_repeat)` tuples, each entry positive (spec
sections 3 and 4.4). -/
def wellFormedTable (t : List (List ℕ)) : Bool :=
  !t.isEmpty && t.all (fun r => r.length = 4 && r.all (fun v => 0 < v))

/-- The fields `MobileNetV2.__init__` would assign. -/
structure MobileNetV2 where
  num_classes : ℕ
  width_mult : ℚ
  round_average_pool : Bool
  input_channel : ℕ
  last_channel : ℕ
  inverted_residual_setting : List (List ℕ)

/-- Constructing the network: the class statement
`class MobileNetV2(nn.module)` evaluates its base-class expression when
the cell runs; `torch.nn` has no attribute `module`, so the class object
is never created and any later attempt to construct the network raises a
`NameError` (the class name is unbound).  The `.ok` branch records what
`__init__` would have assigned (`input_channel = 32`,
`last_channel = 1280`, the unfinished setting table). -/
def MobileNetV2.make (num_classes : ℕ) (width_mult : ℚ)
    (round_average_pool : Bool) : Except PyError MobileNetV2 :=
  if "module" ∈ torchNNAttrs then
    .ok { num_classes := num_classes
        , width_mult := width_mult
        , round_average_pool := round_average_pool
        , input_channel := 32
        , last_channel := 1280
        , inverted_residual_setting := invertedResidualSetting }
  else .error .nameError

/-- A concrete parameter bundle for witnesses: unit weights, identity
batch norm. -/
def cbParams0 : ConvBlockParams :=
  { weight := fun _ _ _ _ => 1
  , bias_param := fun _ => 0
  , bn_weight := fun _ => 1
  , bn_bias := fun _ => 0
  , bn_mean := fun _ => 0
  , bn_inv_std := fun _ => 1 }

/-- A concrete inverted-residual parameter bundle for witnesses. -/
def irParams0 : InvResParams :=
  { expand := cbParams0
  , depthwise := cbParams0
  , pw_weight := fun _ _ _ _ => 1
  , bn_weight := fun _ => 1
  , bn_bias := fun _ => 0
  , bn_mean := fun _ => 0
  , bn_inv_std := fun _ => 1 }

/-- A concrete inverted residual block (`inp = oup = 1`, stride 1,
expansion ratio 2). -/
def irW : InvertedResidual := InvertedResidual.build 1 1 1 2 irParams0

/-- A concrete `ConvBlock` with odd kernel size 3, stride 1, default
padding. -/
def cbOdd : ConvBlock :=
  ConvBlock.build 1 1 3 4 4 1 none 1 defaultEps false false cbParams0

/-- A concrete `ConvBlock` with even kernel size 2, stride 1, default
padding. -/
def cbEven : ConvBlock :=
  ConvBlock.build 1 1 2 4 4 1 none 1 defaultEps false false cbParams0

/-- A concrete `ConvBlock` with kernel 3 and stride 2. -/
def cb3 : ConvBlock :=
  ConvBlock.build 2 3 3 4 4 2 none 1 defaultEps false false cbParams0

/-- A concrete constant input tensor. -/
def x0 : Tensor := fun _ _ _ => 1

theorem ConvBlock.make_resolved (in_channels out_channels kernel_size wb ab stride : ℕ)
    (padding : Option ℕ) (groups : ℕ) (bn_eps : ℚ) (apc bias : Bool)
    (θ : ConvBlockParams) :
    ConvBlock.make in_channels out_channels kernel_size (some wb) (some ab) stride
        padding groups bn_eps apc bias θ
      = .ok (ConvBlock.build in_channels out_channels kernel_size wb ab stride
        padding groups bn_eps apc bias θ) := rfl

theorem narrowMax_nonneg (b : ℕ) : 0 ≤ narrowMax b := by
  have h : (0:ℤ) < 2 ^ (b - 1) := pow_pos (by norm_num) _
  simp only [narrowMax]
  omega

theorem le_intClamp (lo hi n : ℤ) : lo ≤ intClamp lo hi n := le_max_left _ _

theorem intClamp_le (lo hi n : ℤ) (h : lo ≤ hi) : intClamp lo hi n ≤ hi :=
  max_le h (min_le_left _ _)

theorem unsignedMax_pos (b : ℕ) (hb : 1 ≤ b) : 1 ≤ unsignedMax b := by
  have h : (2:ℤ) ≤ 2 ^ b := by
    calc (2:ℤ) = 2 ^ 1 := (pow_one 2).symm
    _ ≤ 2 ^ b := pow_le_pow_right₀ (by norm_num) hb
  simp only [unsignedMax]
  omega

theorem QuantReLU.forward_bounds (a : QuantReLU) (x : Tensor) (c i j : ℕ)
    (hb : 1 ≤ a.bit_width) (hbd : 0 ≤ a.bound c) :
    0 ≤ (a.forward x).value c i j ∧ (a.forward x).value c i j ≤ a.bound c := by
  have hD1 : (1:ℚ) ≤ ((unsignedMax a.bit_width : ℤ) : ℚ) := by
    exact_mod_cast unsignedMax_pos a.bit_width hb
  have hD0 : (0:ℚ) < ((unsignedMax a.bit_width : ℤ) : ℚ) := lt_of_lt_of_le one_pos hD1
  have hs : 0 ≤ a.scale c := div_nonneg hbd (le_of_lt hD0)
  have hm0 : (0:ℤ) ≤ intClamp 0 (unsignedMax a.bit_width) (pyRound (x c i j / a.scale c)) :=
    le_intClamp _ _ _
  have hmU : intClamp 0 (unsignedMax a.bit_width) (pyRound (x c i j / a.scale c))
      ≤ unsignedMax a.bit_width := by
    refine intClamp_le _ _ _ ?_
    have := unsignedMax_pos a.bit_width hb
    omega
  simp only [QuantReLU.forward]
  constructor
  · exact mul_nonneg hs (by exact_mod_cast hm0)
  · have h2 : a.scale c * ((intClamp 0 (unsignedMax a.bit_width)
        (pyRound (x c i j / a.scale c)) : ℤ) : ℚ)
        ≤ a.scale c * ((unsignedMax a.bit_width : ℤ) : ℚ) :=
      mul_le_mul_of_nonneg_left (by exact_mod_cast hmU) hs
    have h3 : a.scale c * ((unsignedMax a.bit_width : ℤ) : ℚ) = a.bound c := by
      simp only [QuantReLU.scale]
      rw [div_mul_cancel₀]
      exact ne_of_gt hD0
    linarith

theorem quantizeWeight_grid (cfg : WeightQuantCfg) (hnarrow : cfg.narrow_range = true)
    (wbw outC cIn k : ℕ) (w : ℕ → ℕ → ℕ → ℕ → ℚ) (o c a b : ℕ) :
    ∃ n : ℤ, |n| ≤ narrowMax wbw ∧
      quantizeWeight cfg wbw outC cIn k w o c a b
        = weightScale cfg wbw outC cIn k w o * (n : ℚ) := by
  refine ⟨intClamp (-narrowMax wbw) (narrowMax wbw)
    (pyRound (w o c a b / weightScale cfg wbw outC cIn k w o)), ?_, ?_⟩
  · have h0 := narrowMax_nonneg wbw
    rw [abs_le]
    exact ⟨le_intClamp _ _ _, intClamp_le _ _ _ (by omega)⟩
  · simp only [quantizeWeight, hnarrow, if_true]

/-- C4: every named base quantization policy (per-tensor weight,
per-channel weight, signed activation, unsigned activation) fixes the
scale floor to the strictly positive constant `2e-16` and leaves
`bit_width` unresolved (`none`); resolving any of them without an explicit
layer override yields `none`, and constructing a `ConvBlock` whose bit
width resolves to `none` fails with a configuration error instead of
evaluating. -/
theorem quantPolicies_floor_and_unresolved :
    (CommonIntWeightPerTensorQuant.scaling_min_val = some (2 / 10 ^ 16)
      ∧ CommonIntWeightPerTensorQuant.bit_width = none)
  ∧ (CommonIntWeightPerChannelQuant.scaling_min_val = some (2 / 10 ^ 16)
      ∧ CommonIntWeightPerChannelQuant.bit_width = none)
  ∧ (CommonIntActQuant.scaling_min_val = some (2 / 10 ^ 16)
      ∧ CommonIntActQuant.bit_width = none)
  ∧ (CommonUintActQuant.scaling_min_val = some (2 / 10 ^ 16)
      ∧ CommonUintActQuant.bit_width = none)
  ∧ (0 < (2 : ℚ) / 10 ^ 16)
  ∧ resolveBitWidth CommonIntWeightPerTensorQuant none = none
  ∧ resolveBitWidth CommonIntWeightPerChannelQuant none = none
  ∧ resolveBitWidth CommonIntActQuant none = none
  ∧ resolveBitWidth CommonUintActQuant none = none
  ∧ (∀ (inC outC k : ℕ) (abw : Option ℕ) (s : ℕ) (p : Option ℕ) (g : ℕ) (e : ℚ)
      (apc bi : Bool) (θ : ConvBlockParams),
      ConvBlock.make inC outC k none abw s p g e apc bi θ = .error .unresolvedBitWidth)
  ∧ (∀ (inC outC k wbw s : ℕ) (p : Option ℕ) (g : ℕ) (e : ℚ) (apc bi : Bool)
      (θ : ConvBlockParams),
      ConvBlock.make inC outC k (some wbw) none s p g e apc bi θ
        = .error .unresolvedBitWidth) := by
  refine ⟨⟨rfl, rfl⟩, ⟨rfl, rfl⟩, ⟨rfl, rfl⟩, ⟨rfl, rfl⟩, by norm_num,
    rfl, rfl, rfl, rfl, ?_, ?_⟩
  · intros
    rfl
  · intros
    rfl

/-- C6: constructing an `InvertedResidual` with a stride other than 1 or 2
fails at construction time (the `assert stride in [1, 2]`); for stride 1
or 2 construction does not fail on the stride check, and every
construction error implies the stride was neither 1 nor 2. -/
theorem invRes_stride_construction_check (inp oup s : ℕ) (exr : ℚ) (θ : InvResParams) :
    (s = 1 ∨ s = 2 →
      InvertedResidual.make inp oup s exr θ = .ok (InvertedResidual.build inp oup s exr θ))
  ∧ (¬(s = 1 ∨ s = 2) → InvertedResidual.make inp oup s exr θ = .error .assertionError)
  ∧ (∀ e, InvertedResidual.make inp oup s exr θ = .error e → s ≠ 1 ∧ s ≠ 2) := by
  refine ⟨fun h => ?_, fun h => ?_, fun e h => ?_⟩
  · simp [InvertedResidual.make, h]
  · simp [InvertedResidual.make, h]
  · by_cases hs : s = 1 ∨ s = 2
    · simp [InvertedResidual.make, hs] at h
    · exact ⟨fun h1 => hs (Or.inl h1), fun h2 => hs (Or.inr h2)⟩

/-- C6 witness: stride 3 is rejected at construction with an
`AssertionError`. -/
theorem invRes_stride_construction_check_witness :
    ¬((3:ℕ) = 1 ∨ (3:ℕ) = 2)
  ∧ InvertedResidual.make 1 1 3 1 irParams0 = .error .assertionError :=
  ⟨by decide, (invRes_stride_construction_check 1 1 3 1 irParams0).2.1 (by decide)⟩

/-- C7: the network assembler's configuration table (the literal
`[[], []]` assigned in `__init__`) is malformed, and every attempted
construction of the assembler fails with an error at construction time —
no forward evaluation (and hence no deferred shape error) is ever
reached. -/
theorem mobilenet_table_construction_error :
    wellFormedTable invertedResidualSetting = false
  ∧ (∀ (num_classes : ℕ) (width_mult : ℚ) (rap : Bool),
        (MobileNetV2.make num_classes width_mult rap).isOk = false
      ∧ MobileNetV2.make num_classes width_mult rap = .error .nameError) := by
  exact ⟨by decide, fun n w r => ⟨rfl, rfl⟩⟩

/-- C8: forward evaluation is deterministic — for fixed weights,
normalization statistics and descriptor parameters (all carried inside the
block values), two evaluations of a `ConvBlock` and of an
`InvertedResidual` on the same input are identical; the forwards are pure
functions with no source of randomness. -/
theorem forward_deterministic (b : ConvBlock) (r : InvertedResidual)
    (inH inW : ℕ) (x : Tensor) :
    b.forward inH inW x = b.forward inH inW x
  ∧ r.forward inH inW x = r.forward inH inW x := ⟨rfl, rfl⟩

/-- C9: `torch.nn` has no attribute `module` (the class is `Module`), so
the `class MobileNetV2(nn.module)` statement fails and every attempted
construction of the network, for every argument tuple, raises an error:
no network instance can ever be created. -/
theorem mobilenet_class_unconstructible :
    ("module" ∉ torchNNAttrs ∧ "Module" ∈ torchNNAttrs)
  ∧ (∀ (num_classes : ℕ) (width_mult : ℚ) (rap : Bool),
      MobileNetV2.make num_classes width_mult rap = .error .nameError) :=
  ⟨⟨by decide, by decide⟩, fun _ _ _ => rfl⟩

/-- C10: the weight-quantization configuration of the inline pointwise
projection inside `InvertedResidual` is identical to the one `ConvBlock`
builds for its convolution at the internal bit width: same per-channel
quantizer class, per-output-channel scaling, abs-max statistic, narrow
range, scale floor `2e-16`, bit width `INTERNAL_BIT_WIDTH = 4`. -/
theorem pointwise_weight_quant_equal :
    invResPointwiseWeightQuantCfg = convBlockWeightQuantCfg (some INTERNAL_BIT_WIDTH)
  ∧ (∀ (inC outC k wbw abw s : ℕ) (p : Option ℕ) (g : ℕ) (e : ℚ) (apc bi : Bool)
      (θ : ConvBlockParams),
      (ConvBlock.build inC outC k wbw abw s p g e apc bi θ).weight_quant
        = convBlockWeightQuantCfg (some wbw))
  ∧ invResPointwiseWeightQuantCfg.weight_quant = CommonIntWeightPerChannelQuant
  ∧ invResPointwiseWeightQuantCfg.scaling_per_output_channel = true
  ∧ invResPointwiseWeightQuantCfg.scaling_stats_abs_max = true
  ∧ invResPointwiseWeightQuantCfg.narrow_range = true
  ∧ invResPointwiseWeightQuantCfg.scaling_min_val = 2 / 10 ^ 16
  ∧ invResPointwiseWeightQuantCfg.bit_width = some 4 :=
  ⟨rfl, fun _ _ _ _ _ _ _ _ _ _ _ _ => rfl, rfl, rfl, rfl, rfl, rfl, rfl⟩

/-- C1: for every constructed `InvertedResidual`, the stored residual flag
`use_res_connect` equals `stride == 1 and inp == oup`; forward evaluation
returns `input + conv-path(input)` exactly when the stored flag is true
and `conv-path(input)` alone otherwise; and forward depends only on the
stored flag and stage list (the flag is fixed at construction and never
re-evaluated — two blocks agreeing on flag and stages evaluate
identically even if their recorded strides differ). -/
theorem invRes_residual_rule (inp oup s : ℕ) (exr : ℚ) (θ : InvResParams)
    (b : InvertedResidual) (h : InvertedResidual.make inp oup s exr θ = .ok b) :
    (b.use_res_connect = (decide (s = 1) && decide (inp = oup)))
  ∧ ((b.use_res_connect = true) ↔ (s = 1 ∧ inp = oup))
  ∧ (∀ inH inW x, b.forward inH inW x =
      if b.use_res_connect then
        (fun c i j => x c i j + runLayers b.layers inH inW x c i j)
      else runLayers b.layers inH inW x)
  ∧ (∀ b' : InvertedResidual, b'.use_res_connect = b.use_res_connect →
      b'.layers = b.layers → ∀ inH inW x, b'.forward inH inW x = b.forward inH inW x) := by
  by_cases hs : s = 1 ∨ s = 2
  · simp only [InvertedResidual.make, if_pos hs, Except.ok.injEq] at h
    subst h
    refine ⟨rfl, ?_, fun inH inW x => rfl, fun b' h1 h2 inH inW x => ?_⟩
    · simp [InvertedResidual.build]
    · simp only [InvertedResidual.forward, h1, h2]
  · simp [InvertedResidual.make, if_neg hs] at h

/-- C1 witness: a concrete block with `inp = oup = 1` and stride 1 has the
residual flag set. -/
theorem invRes_residual_rule_witness :
    InvertedResidual.make 1 1 1 2 irParams0 = .ok irW
  ∧ (irW.use_res_connect = true ↔ ((1:ℕ) = 1 ∧ (1:ℕ) = 1)) :=
  ⟨rfl, (invRes_residual_rule 1 1 1 2 irParams0 irW rfl).2.1⟩

/-- C2: every constructed `InvertedResidual`'s stage list is: an expansion
1×1 `ConvBlock` from `inp` to `hidden_dim = int(round(inp * expand_ratio))`
present exactly when the expansion ratio is not 1; then the depthwise 3×3
`ConvBlock` with `groups = hidden_dim` at the given stride; then the
pointwise projection `QuantConv2d` from `hidden_dim` to `oup` with
quantized weight and no following activation; then a plain
`nn.BatchNorm2d` — all `ConvBlock` stages at `INTERNAL_BIT_WIDTH` for both
weight and activation and the projection's weight at
`INTERNAL_BIT_WIDTH`. -/
theorem invRes_stage_sequence (inp oup s : ℕ) (exr : ℚ) (θ : InvResParams)
    (b : InvertedResidual) (h : InvertedResidual.make inp oup s exr θ = .ok b) :
    b.layers =
      (if exr ≠ 1 then
        [Stage.convBlock (ConvBlock.build inp ((pyRound ((inp : ℚ) * exr)).toNat) 1
          INTERNAL_BIT_WIDTH INTERNAL_BIT_WIDTH 1 none 1 defaultEps false false θ.expand)]
      else [])
      ++ [ Stage.convBlock (ConvBlock.build ((pyRound ((inp : ℚ) * exr)).toNat)
             ((pyRound ((inp : ℚ) * exr)).toNat) 3 INTERNAL_BIT_WIDTH INTERNAL_BIT_WIDTH
             s none ((pyRound ((inp : ℚ) * exr)).toNat) defaultEps false false θ.depthwise)
         , Stage.quantConv invResPointwiseWeightQuantCfg ((pyRound ((inp : ℚ) * exr)).toNat)
             oup 1 1 0 θ.pw_weight
         , Stage.batchNorm { num_features := oup
                           , eps := defaultEps
                           , weight := θ.bn_weight
                           , bias := θ.bn_bias
                           , running_mean := θ.bn_mean
                           , inv_std := θ.bn_inv_std } ]
  ∧ b.layers.length = (if exr ≠ 1 then 4 else 3)
  ∧ (∀ c : ConvBlock, Stage.convBlock c ∈ b.layers →
      c.weight_bit_width = INTERNAL_BIT_WIDTH ∧ c.act_bit_width = INTERNAL_BIT_WIDTH) := by
  by_cases hs : s = 1 ∨ s = 2
  · simp only [InvertedResidual.make, if_pos hs, Except.ok.injEq] at h
    subst h
    refine ⟨rfl, ?_, ?_⟩
    · by_cases he : exr ≠ 1 <;> simp [InvertedResidual.build, he]
    · intro c hc
      simp only [InvertedResidual.build] at hc
      by_cases he : exr ≠ 1
      · rw [if_pos he] at hc
        simp only [List.cons_append, List.nil_append, List.mem_cons,
          List.not_mem_nil, or_false] at hc
        rcases hc with hc | hc | hc | hc
        · cases hc
          exact ⟨rfl, rfl⟩
        · cases hc
          exact ⟨rfl, rfl⟩
        · cases hc
        · cases hc
      · rw [if_neg he] at hc
        simp only [List.nil_append, List.mem_cons, List.not_mem_nil, or_false] at hc
        rcases hc with hc | hc | hc
        · cases hc
          exact ⟨rfl, rfl⟩
        · cases hc
        · cases hc
  · simp [InvertedResidual.make, if_neg hs] at h

/-- C2 witness: the concrete block `irW` (expansion ratio 2) has all four
stages. -/
theorem invRes_stage_sequence_witness :
    InvertedResidual.make 1 1 1 2 irParams0 = .ok irW
  ∧ irW.layers.length = (if (2:ℚ) ≠ 1 then 4 else 3) :=
  ⟨rfl, (invRes_stage_sequence 1 1 1 2 irParams0 irW rfl).2.1⟩

/-- C5 (amended): every `ConvBlock` constructed without an explicit
padding argument uses padding `(kernel_size - 1) / 2` with integer floor;
output spatial size always follows the standard convolution arithmetic;
and for stride 1 with default padding and an ODD kernel size, output
spatial size equals input spatial size on nonempty inputs. -/
theorem convBlock_padding_and_spatial (inC outC k wbw abw s : ℕ)
    (p : Option ℕ) (g : ℕ) (e : ℚ) (apc bi : Bool) (θ : ConvBlockParams)
    (b : ConvBlock)
    (h : ConvBlock.make inC outC k (some wbw) (some abw) s p g e apc bi θ = .ok b) :
    b.padding = p.getD ((k - 1) / 2)
  ∧ (∀ n, b.outSize n = convOutSize n k b.padding s)
  ∧ (p = none → s = 1 → k % 2 = 1 → ∀ n, 1 ≤ n → b.outSize n = n) := by
  rw [ConvBlock.make_resolved, Except.ok.injEq] at h
  subst h
  refine ⟨rfl, fun n => rfl, fun hp hs hk n hn => ?_⟩
  subst hp
  subst hs
  show convOutSize n k ((k - 1) / 2) 1 = n
  simp only [convOutSize, Nat.div_one]
  omega

/-- C5 counterexample: a valid `ConvBlock` with even kernel size 2,
stride 1 and default padding does NOT preserve spatial size: input
spatial size 4 produces output spatial size 3. -/
theorem convBlock_spatial_counterexample :
    ConvBlock.make 1 1 2 (some 4) (some 4) 1 none 1 defaultEps false false cbParams0
      = .ok cbEven
  ∧ cbEven.stride = 1
  ∧ cbEven.padding = (2 - 1) / 2
  ∧ cbEven.outSize 4 = 3
  ∧ ¬ cbEven.outSize 4 = 4 :=
  ⟨rfl, rfl, rfl, rfl, by decide⟩

/-- C5 witness: the odd-kernel block `cbOdd` (kernel 3, stride 1, default
padding) preserves spatial size. -/
theorem convBlock_padding_and_spatial_witness :
    ConvBlock.make 1 1 3 (some 4) (some 4) 1 none 1 defaultEps false false cbParams0
      = .ok cbOdd
  ∧ ((none : Option ℕ) = none → (1:ℕ) = 1 → 3 % 2 = 1 → ∀ n, 1 ≤ n → cbOdd.outSize n = n) :=
  ⟨rfl, (convBlock_padding_and_spatial 1 1 3 4 4 1 none 1 defaultEps false false
    cbParams0 cbOdd rfl).2.2⟩

/-- C3: a `ConvBlock`'s forward evaluation applies, in order, the
convolution with its per-output-channel quantized weight, then the
standard non-quantized batch normalization, then the quantized bounded
rectifier, and returns a quantized tensor carrying both the numeric
values and the activation scale.  The per-channel weight scale is the
absolute maximum of that output channel's weight values (floored at the
scale floor) divided by the largest narrow-range code; every quantized
weight entry lies on that channel's scale grid within the narrow signed
range; the activation output is clipped to `[0, bound]`; and
`ConvBlock.__init__` fixes the activation's upper bound to 6 and wires
`act_bit_width` and the `activation_scaling_per_channel` flag into the
rectifier. -/
theorem convBlock_pipeline (b : ConvBlock)
    (hq : b.weight_quant = convBlockWeightQuantCfg (some b.weight_bit_width))
    (hb : 1 ≤ b.activation.bit_width)
    (hbd : ∀ c, 0 ≤ b.activation.bound c)
    (inH inW : ℕ) (x : Tensor) :
    (b.forward inH inW x = b.activation.forward (b.bn.forward (b.convOut inH inW x))
      ∧ (b.forward inH inW x).scale = b.activation.scale)
  ∧ (∀ o, weightScale b.weight_quant b.weight_bit_width b.out_channels
        (b.in_channels / b.groups) b.kernel_size b.weight o
      = max (absMaxOverChannel b.weight (b.in_channels / b.groups) b.kernel_size o)
          b.weight_quant.scaling_min_val / ((narrowMax b.weight_bit_width : ℤ) : ℚ))
  ∧ (∀ o c a k2, ∃ n : ℤ, |n| ≤ narrowMax b.weight_bit_width ∧
        b.quantizedWeight o c a k2
          = weightScale b.weight_quant b.weight_bit_width b.out_channels
              (b.in_channels / b.groups) b.kernel_size b.weight o * (n : ℚ))
  ∧ (∀ c i j, 0 ≤ (b.forward inH inW x).value c i j
        ∧ (b.forward inH inW x).value c i j ≤ b.activation.bound c)
  ∧ (∀ (inC outC k wbw abw s : ℕ) (p : Option ℕ) (g : ℕ) (e : ℚ) (apc bi : Bool)
        (θ : ConvBlockParams),
        (ConvBlock.build inC outC k wbw abw s p g e apc bi θ).activation.max_val = 6
      ∧ (ConvBlock.build inC outC k wbw abw s p g e apc bi θ).activation.scaling_param
          = (fun _ => (6:ℚ))
      ∧ (ConvBlock.build inC outC k wbw abw s p g e apc bi θ).activation.bit_width = abw
      ∧ (ConvBlock.build inC outC k wbw abw s p g e apc bi θ).activation.scaling_per_channel
          = apc) := by
  refine ⟨⟨rfl, rfl⟩, fun o => ?_, fun o c a k2 => ?_, fun c i j => ?_,
    fun _ _ _ _ _ _ _ _ _ _ _ _ => ⟨rfl, rfl, rfl, rfl⟩⟩
  · rw [hq]
    simp only [weightScale, convBlockWeightQuantCfg, if_true]
  · exact quantizeWeight_grid b.weight_quant (by rw [hq]; rfl) b.weight_bit_width
      b.out_channels (b.in_channels / b.groups) b.kernel_size b.weight o c a k2
  · exact QuantReLU.forward_bounds b.activation
      (b.bn.forward (b.convOut inH inW x)) c i j hb (hbd c)

/-- C3 witness: the concrete block `cb3` satisfies the hypotheses and its
forward output on the constant input is clipped at the activation
bound. -/
theorem convBlock_pipeline_witness :
    (cb3.weight_quant = convBlockWeightQuantCfg (some cb3.weight_bit_width)
      ∧ 1 ≤ cb3.activation.bit_width
      ∧ (∀ c, 0 ≤ cb3.activation.bound c))
  ∧ (∀ c i j, 0 ≤ (cb3.forward 4 4 x0).value c i j
        ∧ (cb3.forward 4 4 x0).value c i j ≤ cb3.activation.bound c) :=
  ⟨⟨rfl, by decide, by intro c; norm_num [cb3, ConvBlock.build, QuantReLU.bound]⟩,
    (convBlock_pipeline cb3 rfl (by decide)
      (by intro c; norm_num [cb3, ConvBlock.build, QuantReLU.bound]) 4 4 x0).2.2.2.1⟩
